import Mathlib

/-!
Shallow embedding of the spektrum game server core (src/server.py):
the lobby data model, round selection, scoring, phase toggling and the
broadcast fan-out loop, together with theorems checking the
natural-language specification against this code.

Python floats (time.time()) are modelled as rationals; Python ints as ℤ;
dicts keyed by player name as association lists with unique keys;
`random.choice` and `random.shuffle` are modelled by explicit seed
streams (`Nat → Nat`) selecting indices, so every definition is
executable.
-/

namespace Spektrum

/-- A color entry, `{"name": ..., "rgb": ...}` from `all_colors`. -/
structure Color where
  name : String
  rgb : String
deriving DecidableEq

/-- A catalog (song) entry as loaded from the CSV: its URI key and color tags. -/
structure Song where
  uri : String
  colors : List String
deriving DecidableEq

/-- A player record (class `Player`): cumulative score, optional connection
handle (modelled as a numeric handle id), per-round answer lock and stored
answer. -/
structure Player where
  name : String
  score : ℤ
  websocket : Option Nat
  has_answered : Bool
  answer : Option String
deriving DecidableEq

/-- Fresh player, `Player.__init__`. -/
def Player.mk0 (name : String) : Player :=
  { name := name, score := 0, websocket := none,
    has_answered := false, answer := none }

/-- The lobby state (class `GameLobby`). `players` is the roster dict. -/
structure GameLobby where
  name : String
  players : List (String × Player)
  round_colors : List Color
  correct_colors : List String
  state : String
  round_start_time : Option ℚ
  round_duration : ℚ
  songs : List Song
  used_songs : List String
  current_song : Option Song
deriving DecidableEq

/-- The fixed color palette `self.all_colors`. -/
def all_colors : List Color :=
  [⟨"Red", "#FF0000"⟩, ⟨"Green", "#00FF00"⟩, ⟨"Blue", "#0000FF"⟩,
   ⟨"Yellow", "#FFFF00"⟩, ⟨"Purple", "#800080"⟩, ⟨"Gold", "#FFD700"⟩,
   ⟨"Silver", "#C0C0C0"⟩, ⟨"Pink", "#FFC0CB"⟩, ⟨"Black", "#000000"⟩,
   ⟨"White", "#FFFFFF"⟩, ⟨"Brown", "#3D251E"⟩, ⟨"Orange", "#FFA500"⟩,
   ⟨"Gray", "#808080"⟩]

/-- Dict lookup `self.players[name]` as an Option (None models a KeyError). -/
def lookupPlayer (l : GameLobby) (n : String) : Option Player :=
  (l.players.find? (fun q => q.1 == n)).map (fun q => q.2)

/-- In-place update of the entry for key `n` (mutating `self.players[name]`). -/
def setPlayer (ps : List (String × Player)) (n : String) (p : Player) :
    List (String × Player) :=
  ps.map (fun q => if q.1 == n then (n, p) else q)

/-- `GameLobby.add_player`: create the record on first join, then attach the
connection handle. -/
def add_player (l : GameLobby) (n : String) (ws : Nat) : GameLobby :=
  let ps := if (l.players.find? (fun q => q.1 == n)).isSome then l.players
            else l.players ++ [(n, Player.mk0 n)]
  { l with players :=
      ps.map (fun q => if q.1 == n then (q.1, { q.2 with websocket := some ws }) else q) }

/-- `GameLobby.remove_player`: `del self.players[name]` when present. -/
def remove_player (l : GameLobby) (n : String) : GameLobby :=
  { l with players := l.players.filter (fun q => q.1 != n) }

/-- `GameLobby.get_player_list`: leaderboard of connected players. -/
def get_player_list (l : GameLobby) : List (String × ℤ) :=
  (l.players.filter (fun q => q.2.websocket.isSome)).map (fun q => (q.2.name, q.2.score))

/-- `GameLobby.get_answer_count`: `(answered, total)` over the whole roster. -/
def get_answer_count (l : GameLobby) : Nat × Nat :=
  ((l.players.filter (fun q => q.2.has_answered)).length, l.players.length)

/-- `GameLobby.all_players_answered`. -/
def all_players_answered (l : GameLobby) : Bool :=
  l.players.all (fun q => q.2.has_answered)

/-- Python `int()` applied to a rational: truncation toward zero. -/
def pyInt (x : ℚ) : ℤ :=
  if 0 ≤ x then ⌊x⌋ else ⌈x⌉

/-- The time-decayed candidate score computed at src/server.py line 187:
`max(0, int(5000 - (elapsed_time * 100)))`. -/
def roundScore (elapsed : ℚ) : ℤ :=
  max 0 (pyInt (5000 - elapsed * 100))

/-- Python membership test `player.answer in self.correct_colors`, where
`player.answer` may be `None` (never a member of a list of strings). -/
def answerMem (a : Option String) (cs : List String) : Bool :=
  match a with
  | none => false
  | some x => decide (x ∈ cs)

/-- `GameLobby.check_answer(player_name, color_name)` at time `now`.
Returns `none` exactly where the Python code would raise (a `KeyError` on a
missing roster entry, or a `TypeError` from `None` arithmetic when
`round_start_time` was never set during an active round); otherwise returns
the updated lobby and the `(is_correct, score)` pair. -/
def check_answer (l : GameLobby) (now : ℚ) (player_name color_name : String) :
    Option (GameLobby × Bool × ℤ) :=
  if l.state ≠ "question" then some (l, false, 0)
  else
    match lookupPlayer l player_name with
    | none => none
    | some player =>
      if player.has_answered then
        some (l, answerMem player.answer l.correct_colors, player.score)
      else
        match l.round_start_time with
        | none => none
        | some start =>
          let elapsed := now - start
          if l.round_duration < elapsed then some (l, false, 0)
          else
            let score := roundScore elapsed
            let is_correct := decide (color_name ∈ l.correct_colors)
            let player1 : Player :=
              { player with
                score := player.score + (if is_correct then score else 0),
                has_answered := true,
                answer := some color_name }
            some ({ l with players := setPlayer l.players player_name player1 },
                  is_correct, score)

end Spektrum

namespace Spektrum

/-- The first confusable group, `["Yellow", "Gold", "Orange"]`. -/
def confGroup1 : List String := ["Yellow", "Gold", "Orange"]

/-- The second confusable group, `["Silver", "Gray"]`. -/
def confGroup2 : List String := ["Silver", "Gray"]

/-- The `excluded_colors` set computed from the correct color names
(src/server.py lines 86-93 and 136-140). -/
def excludedFor (correctNames : List String) : List String :=
  (if correctNames.any (fun n => decide (n ∈ confGroup1)) then confGroup1 else []) ++
  (if correctNames.any (fun n => decide (n ∈ confGroup2)) then confGroup2 else [])

/-- One `next(...)` resolution of a color name against `all_colors`,
case-insensitively (src/server.py lines 76-77). -/
def resolveColor (n : String) : Option Color :=
  all_colors.find? (fun c => c.name.toLower == n.toLower)

/-- The pool update at the end of one filler iteration (src/server.py
lines 101-107 and 148-154): remove the drawn color and, if it belongs to a
confusable group, every remaining member of that group. -/
def pruneAfter (chosen : Color) (avail : List Color) : List Color :=
  let avail1 := avail.erase chosen
  if chosen.name ∈ confGroup1 then
    avail1.filter (fun c => decide (c.name ∉ confGroup1))
  else if chosen.name ∈ confGroup2 then
    avail1.filter (fun c => decide (c.name ∉ confGroup2))
  else avail1

/-- The filler `while` loop (src/server.py lines 98-107 and 145-154):
repeatedly draw a random available color, append it, and prune the pool.
`seeds k` selects the draw of iteration `k`; the fuel `6` bounds the
iteration count exactly as the `len < 6` guard does, since every iteration
appends one color. -/
def fillLoop (seeds : Nat → Nat) (k : Nat) :
    Nat → List Color → List Color → List Color
  | 0, rcs, _ => rcs
  | fuel + 1, rcs, avail =>
    if h : rcs.length < 6 ∧ avail ≠ [] then
      have hlen : 0 < avail.length := List.length_pos.mpr h.2
      let chosen := avail.get ⟨seeds k % avail.length, Nat.mod_lt _ hlen⟩
      fillLoop seeds (k + 1) fuel (rcs ++ [chosen]) (pruneAfter chosen avail)
    else rcs

/-- `random.shuffle`, modelled as a seed-driven permutation: repeatedly pick
an index and move that element to the front of the result. -/
def shuffleLoop (seeds : Nat → Nat) (k : Nat) :
    Nat → List Color → List Color
  | 0, _ => []
  | fuel + 1, l =>
    if h : l = [] then []
    else
      have hlen : 0 < l.length := List.length_pos.mpr h
      let c := l.get ⟨seeds k % l.length, Nat.mod_lt _ hlen⟩
      c :: shuffleLoop seeds (k + 1) fuel (l.erase c)

/-- `random.shuffle(self.round_colors)`. -/
def shuffle (seeds : Nat → Nat) (l : List Color) : List Color :=
  shuffleLoop seeds 0 l.length l

/-- The part of `select_round_colors` shared verbatim by both branches once
`chosen_correct_colors` is known (src/server.py lines 83-109 and 133-156):
start from the correct colors, build the available pool minus exclusions,
run the filler loop and shuffle.  Returns `(round_colors, correct_colors)`. -/
def buildRound (fillSeeds shufSeeds : Nat → Nat) (chosen_correct : List Color) :
    List Color × List String :=
  let correct := chosen_correct.map (fun c => c.name)
  let excluded := excludedFor correct
  let avail := all_colors.filter
    (fun c => decide (c.name ∉ excluded) && decide (c ∉ chosen_correct))
  (shuffle shufSeeds (fillLoop fillSeeds 0 6 chosen_correct avail), correct)

/-- `GameLobby.select_round_colors(specified_colors)`.  `songSeed` drives
`random.choice(available_songs)`, `fillSeeds` the filler draws and
`shufSeeds` the final shuffle.  Returns the mutated lobby and the boolean
the Python method returns; note that `round_colors` and `correct_colors`
are cleared up-front even on the failure paths, as in the source. -/
def select_round_colors (songSeed : Nat) (fillSeeds shufSeeds : Nat → Nat)
    (l : GameLobby) (specified_colors : Option (List String)) :
    GameLobby × Bool :=
  let l0 := { l with round_colors := [], correct_colors := [] }
  let spec := specified_colors.getD []
  if spec ≠ [] then
    let chosen_correct := spec.filterMap resolveColor
    if chosen_correct = [] then (l0, false)
    else
      let rc := buildRound fillSeeds shufSeeds chosen_correct
      ({ l0 with round_colors := rc.1, correct_colors := rc.2 }, true)
  else
    let available_songs := l.songs.filter (fun s => decide (s.uri ∉ l.used_songs))
    if hs : available_songs = [] then (l0, false)
    else
      have hlen : 0 < available_songs.length := List.length_pos.mpr hs
      let chosen_song := available_songs.get ⟨songSeed % available_songs.length,
        Nat.mod_lt _ hlen⟩
      let chosen_correct := chosen_song.colors.filterMap resolveColor
      if chosen_correct = [] then (l0, false)
      else
        let rc := buildRound fillSeeds shufSeeds chosen_correct
        ({ l0 with current_song := some chosen_song,
                   round_colors := rc.1, correct_colors := rc.2 }, true)

/-- `GameLobby.start_new_round`. -/
def start_new_round (now : ℚ) (songSeed : Nat) (fillSeeds shufSeeds : Nat → Nat)
    (l : GameLobby) (specified_colors : Option (List String)) : GameLobby :=
  let r := select_round_colors songSeed fillSeeds shufSeeds l specified_colors
  if r.2 = false then r.1
  else
    { r.1 with
      round_start_time := some now,
      state := "question",
      players := r.1.players.map
        (fun q => (q.1, { q.2 with has_answered := false, answer := none })) }

/-- `GameLobby.end_round`. -/
def end_round (l : GameLobby) : GameLobby :=
  { l with
    used_songs :=
      match l.current_song with
      | some s => if s.uri ∈ l.used_songs then l.used_songs else s.uri :: l.used_songs
      | none => l.used_songs,
    current_song := none,
    state := "score" }

/-- `GameLobby.toggle_state`: toggles the phase and returns the new state. -/
def toggle_state (now : ℚ) (songSeed : Nat) (fillSeeds shufSeeds : Nat → Nat)
    (l : GameLobby) (specified_colors : Option (List String)) :
    GameLobby × String :=
  let l1 := if l.state = "score"
            then start_new_round now songSeed fillSeeds shufSeeds l specified_colors
            else end_round l
  (l1, l1.state)

/-- The broadcast fan-out loop of `broadcast_game_state` (and, with the same
guard and failure behaviour, `broadcast_answer_count`):
`for p in lobby.players.values(): if p.websocket: await send(...)`.
`sendOk n` tells whether the send on player `n`'s connection succeeds; a
failing send raises, which the source does not catch, so the loop stops
there.  Returns the list of players actually sent to, in roster order, and
whether the loop ran to completion without an exception. -/
def broadcast_game_state (sendOk : String → Bool) :
    List (String × Player) → List String × Bool
  | [] => ([], true)
  | q :: rest =>
    if q.2.websocket.isSome then
      if sendOk q.1 then
        let r := broadcast_game_state sendOk rest
        (q.1 :: r.1, r.2)
      else ([], false)
    else broadcast_game_state sendOk rest

end Spektrum

namespace Spektrum

/-- A connected fresh player used in concrete scenarios. -/
def demoPlayer : Player :=
  { name := "A", score := 0, websocket := some 0,
    has_answered := false, answer := none }

/-- A lobby in the middle of an active round whose correct answer is Red,
with the single fresh player `demoPlayer`; the round started at time 0. -/
def demoLobby : GameLobby :=
  { name := "l", players := [("A", demoPlayer)], round_colors := [],
    correct_colors := ["Red"], state := "question",
    round_start_time := some 0, round_duration := 50,
    songs := [], used_songs := [], current_song := none }

/-- Clamping at zero erases the difference between truncation toward zero
and flooring: the code's `max(0, int(x))` equals `max 0 ⌊x⌋`. -/
lemma max_pyInt_eq_max_floor (x : ℚ) : max 0 (pyInt x) = max 0 ⌊x⌋ := by
  unfold pyInt
  split
  · rfl
  · next h =>
    push_neg at h
    have hc : ⌈x⌉ ≤ 0 := Int.ceil_le.mpr (by exact_mod_cast h.le)
    rw [max_eq_left hc, max_eq_left (Int.floor_nonpos h.le)]

/-- Unfolding of `check_answer` on a fresh in-time answer. -/
lemma check_answer_fresh (l : GameLobby) (now s : ℚ) (n c : String) (p : Player)
    (hstate : l.state = "question") (hp : lookupPlayer l n = some p)
    (ha : p.has_answered = false) (hs : l.round_start_time = some s)
    (hd : ¬ l.round_duration < now - s) :
    check_answer l now n c =
      some ({ l with players := setPlayer l.players n
                       ({ p with
                          score := p.score +
                            (if decide (c ∈ l.correct_colors) then roundScore (now - s) else 0),
                          has_answered := true, answer := some c }) },
        decide (c ∈ l.correct_colors), roundScore (now - s)) := by
  unfold check_answer
  rw [if_neg (by simp [hstate]), hp]
  simp only [ha, hs, Bool.false_eq_true, if_false, if_neg hd]

/-- Claim C1, counterexample: at elapsed time t = 1/200 s the code awards
`max(0, int(5000 - t*100)) = 4999`, not `max(0, 5000 - floor(t*100)) = 5000`
as the claim states — the floor is applied to the whole difference, not to
`t*100` alone. -/
theorem check_answer_floor_placement_cex :
    ((check_answer demoLobby (1/200) "A" "Red").map (fun r => (r.2.1, r.2.2)))
      = some (true, 4999) ∧
    (4999 : ℤ) ≠ max 0 (5000 - ⌊(1/200 : ℚ) * 100⌋) := by
  constructor
  · simp only [check_answer, demoLobby, demoPlayer, lookupPlayer, List.find?,
      setPlayer, roundScore, pyInt, answerMem]
    norm_num [Rat.floor_def]
  · norm_num [Rat.floor_def]

/-- Claim C1 (amended): for a first (unlocked) answer in an active round at
elapsed time t = now - round_start_time with 0 ≤ t ≤ round_duration,
`check_answer` computes the candidate score as `max(0, ⌊5000 - t*100⌋)`
(the int-truncation of the whole difference); if the chosen color is in
`correct_colors` this amount is added to the player's cumulative score and
returned, and if it is not, 0 is added regardless of the decayed value. -/
theorem check_answer_first_unlocked_score (l : GameLobby) (now s : ℚ)
    (n c : String) (p : Player)
    (hstate : l.state = "question") (hp : lookupPlayer l n = some p)
    (ha : p.has_answered = false) (hs : l.round_start_time = some s)
    (_h0 : 0 ≤ now - s) (hd : now - s ≤ l.round_duration) :
    check_answer l now n c =
      some ({ l with players := setPlayer l.players n
                       ({ p with
                          score := p.score +
                            (if decide (c ∈ l.correct_colors) then roundScore (now - s) else 0),
                          has_answered := true, answer := some c }) },
        decide (c ∈ l.correct_colors), roundScore (now - s)) ∧
    roundScore (now - s) = max 0 ⌊5000 - (now - s) * 100⌋ := by
  refine ⟨check_answer_fresh l now s n c p hstate hp ha hs (not_lt.mpr hd), ?_⟩
  rw [roundScore, max_pyInt_eq_max_floor]

/-- Claim C1 witness: instantiation at `demoLobby`, t = 3, answer Red. -/
theorem check_answer_first_unlocked_score_witness :
    demoLobby.state = "question" ∧
    lookupPlayer demoLobby "A" = some demoPlayer ∧
    demoPlayer.has_answered = false ∧
    demoLobby.round_start_time = some 0 ∧
    (0 : ℚ) ≤ 3 - 0 ∧ (3 : ℚ) - 0 ≤ demoLobby.round_duration ∧
    (check_answer demoLobby 3 "A" "Red" =
      some ({ demoLobby with players := setPlayer demoLobby.players "A"
                               ({ demoPlayer with
                                  score := demoPlayer.score +
                                    (if decide ("Red" ∈ demoLobby.correct_colors)
                                     then roundScore ((3:ℚ) - 0) else 0),
                                  has_answered := true, answer := some "Red" }) },
        decide ("Red" ∈ demoLobby.correct_colors), roundScore ((3:ℚ) - 0)) ∧
      roundScore ((3:ℚ) - 0) = max 0 ⌊5000 - ((3:ℚ) - 0) * 100⌋) :=
  ⟨rfl, by decide, rfl, rfl, by with_unfolding_all decide, by with_unfolding_all decide,
    check_answer_first_unlocked_score demoLobby 3 0 "A" "Red" demoPlayer rfl (by decide)
      rfl rfl (by with_unfolding_all decide) (by with_unfolding_all decide)⟩

/-- Claim C2, counterexample: player A first submits the incorrect answer
Blue at t = 0; the first call returns (false, 5000) — the decayed candidate
is returned even for a wrong answer — while the second call returns
(false, 0), the player's cumulative score, not the first call's pair. -/
theorem check_answer_second_call_cex :
    ((check_answer demoLobby 0 "A" "Blue").map (fun r => (r.2.1, r.2.2)))
      = some (false, 5000) ∧
    (((check_answer demoLobby 0 "A" "Blue").bind
        (fun r => check_answer r.1 0 "A" "Blue")).map (fun r => (r.2.1, r.2.2)))
      = some (false, 0) ∧
    ((false, (0 : ℤ)) ≠ (false, (5000 : ℤ))) := by
  refine ⟨?_, ?_, by decide⟩ <;>
  · simp only [check_answer, demoLobby, demoPlayer, lookupPlayer, List.find?,
      setPlayer, roundScore, pyInt, answerMem, Option.bind]
    norm_num [Rat.floor_def]
    all_goals decide

/-- Claim C2 (amended): once a player is locked (`answered_this_round`),
any further `check_answer` call in the round leaves the whole lobby
unchanged — in particular the player's cumulative score and stored
`last_answer` — and returns correctness re-derived from the stored answer
together with the player's *cumulative* score (not the first call's
returned score). -/
theorem check_answer_locked_idempotent (l : GameLobby) (now : ℚ)
    (n c : String) (p : Player)
    (hstate : l.state = "question") (hp : lookupPlayer l n = some p)
    (ha : p.has_answered = true) :
    check_answer l now n c = some (l, answerMem p.answer l.correct_colors, p.score) := by
  unfold check_answer
  rw [if_neg (by simp [hstate]), hp]
  simp only [ha, if_true]

/-- Claim C2 witness: a locked player with stored answer Red and score 42. -/
theorem check_answer_locked_idempotent_witness :
    ({ demoLobby with players := [("A", { demoPlayer with
        score := 42, has_answered := true, answer := some "Red" })] } : GameLobby).state
      = "question" ∧
    lookupPlayer { demoLobby with players := [("A", { demoPlayer with
        score := 42, has_answered := true, answer := some "Red" })] } "A"
      = some { demoPlayer with score := 42, has_answered := true, answer := some "Red" } ∧
    check_answer { demoLobby with players := [("A", { demoPlayer with
        score := 42, has_answered := true, answer := some "Red" })] } 7 "A" "Blue"
      = some ({ demoLobby with players := [("A", { demoPlayer with
          score := 42, has_answered := true, answer := some "Red" })] },
        answerMem (some "Red")
          ({ demoLobby with players := [("A", { demoPlayer with
              score := 42, has_answered := true, answer := some "Red" })] } : GameLobby).correct_colors,
        42) :=
  ⟨rfl, by decide,
    check_answer_locked_idempotent _ 7 "A" "Blue"
      { demoPlayer with score := 42, has_answered := true, answer := some "Red" }
      rfl (by decide) rfl⟩

/-- Claim C8: a submission by a not-yet-locked player strictly after the
round deadline returns (false, 0) and changes no state at all — the late
submission does not lock the player's answer. -/
theorem check_answer_late_no_op (l : GameLobby) (now s : ℚ)
    (n c : String) (p : Player)
    (hstate : l.state = "question") (hp : lookupPlayer l n = some p)
    (ha : p.has_answered = false) (hs : l.round_start_time = some s)
    (hlate : l.round_duration < now - s) :
    check_answer l now n c = some (l, false, 0) := by
  unfold check_answer
  rw [if_neg (by simp [hstate]), hp]
  simp only [ha, hs, Bool.false_eq_true, if_false, if_pos hlate]

/-- Claim C8 witness: a submission at t = 60 in a 50-second round. -/
theorem check_answer_late_no_op_witness :
    demoLobby.state = "question" ∧
    lookupPlayer demoLobby "A" = some demoPlayer ∧
    demoPlayer.has_answered = false ∧
    demoLobby.round_start_time = some 0 ∧
    demoLobby.round_duration < (60 : ℚ) - 0 ∧
    check_answer demoLobby 60 "A" "Red" = some (demoLobby, false, 0) :=
  ⟨rfl, by decide, rfl, rfl, by with_unfolding_all decide,
    check_answer_late_no_op demoLobby 60 0 "A" "Red" demoPlayer rfl (by decide) rfl rfl
      (by with_unfolding_all decide)⟩

/-- Claim C10: `check_answer` indexes the roster without a membership
check: in an active round it faults (models a Python `KeyError`, here
`none`) for any name not in the roster; under the precondition that the
named player is in the roster (and the session invariant that an active
round has a start time) it always returns a result. -/
theorem check_answer_roster_totality (l : GameLobby) (now : ℚ) (n c : String) :
    (l.state = "question" → lookupPlayer l n = none →
      check_answer l now n c = none) ∧
    ((lookupPlayer l n).isSome →
      (l.state = "question" → l.round_start_time.isSome) →
      (check_answer l now n c).isSome) := by
  constructor
  · intro hq hnone
    unfold check_answer
    rw [if_neg (by simp [hq]), hnone]
  · intro hsome hrst
    unfold check_answer
    by_cases hq : l.state = "question"
    · rw [if_neg (by simp [hq])]
      obtain ⟨p, hp⟩ := Option.isSome_iff_exists.mp hsome
      rw [hp]
      by_cases ha : p.has_answered
      · simp [ha]
      · obtain ⟨s, hs⟩ := Option.isSome_iff_exists.mp (hrst hq)
        simp only [ha, Bool.false_eq_true, if_false, hs]
        by_cases hlate : l.round_duration < now - s
        · simp [hlate]
        · simp [hlate]
    · rw [if_pos (by simp [hq])]
      simp

/-- On every failure path, `select_round_colors` returns the input lobby
with only `round_colors` and `correct_colors` cleared (they are reset
up-front in the source), and reports `False`. -/
lemma select_round_colors_failure_frame (songSeed : Nat)
    (fillSeeds shufSeeds : Nat → Nat) (l : GameLobby)
    (spec : Option (List String))
    (h : (select_round_colors songSeed fillSeeds shufSeeds l spec).2 = false) :
    (select_round_colors songSeed fillSeeds shufSeeds l spec).1 =
      { l with round_colors := [], correct_colors := [] } := by
  unfold select_round_colors at h ⊢
  dsimp only at h ⊢
  split_ifs at h ⊢ <;> rfl

/-- Claim C5: when `toggle` is invoked in the Scoring phase and round
selection fails, the session stays in Scoring, `round_start_time` is
untouched, no player's lock or stored answer is reset, the catalog
bookkeeping is untouched, and the caller synchronously observes the
failure (the returned state is still "score" and no round was started). -/
theorem toggle_selection_failure_frame (now : ℚ) (songSeed : Nat)
    (fillSeeds shufSeeds : Nat → Nat) (l : GameLobby)
    (spec : Option (List String))
    (hsc : l.state = "score")
    (hfail : (select_round_colors songSeed fillSeeds shufSeeds l spec).2 = false) :
    (toggle_state now songSeed fillSeeds shufSeeds l spec).2 = "score" ∧
    (toggle_state now songSeed fillSeeds shufSeeds l spec).1.state = "score" ∧
    (toggle_state now songSeed fillSeeds shufSeeds l spec).1.round_start_time
      = l.round_start_time ∧
    (toggle_state now songSeed fillSeeds shufSeeds l spec).1.players = l.players ∧
    (toggle_state now songSeed fillSeeds shufSeeds l spec).1.used_songs = l.used_songs ∧
    (toggle_state now songSeed fillSeeds shufSeeds l spec).1.current_song
      = l.current_song := by
  have hframe := select_round_colors_failure_frame songSeed fillSeeds shufSeeds l spec hfail
  unfold toggle_state start_new_round
  rw [if_pos hsc, if_pos hfail, hframe]
  exact ⟨hsc, hsc, rfl, rfl, rfl, rfl⟩

/-- Claim C5 witness: a toggle from Scoring whose explicit color list
resolves to no valid color. -/
theorem toggle_selection_failure_frame_witness :
    ({ demoLobby with state := "score" } : GameLobby).state = "score" ∧
    (select_round_colors 0 (fun _ => 0) (fun _ => 0)
      { demoLobby with state := "score" } (some ["Turquoise"])).2 = false ∧
    ((toggle_state 9 0 (fun _ => 0) (fun _ => 0)
        { demoLobby with state := "score" } (some ["Turquoise"])).2 = "score" ∧
      (toggle_state 9 0 (fun _ => 0) (fun _ => 0)
        { demoLobby with state := "score" } (some ["Turquoise"])).1.state = "score" ∧
      (toggle_state 9 0 (fun _ => 0) (fun _ => 0)
        { demoLobby with state := "score" } (some ["Turquoise"])).1.round_start_time
        = ({ demoLobby with state := "score" } : GameLobby).round_start_time ∧
      (toggle_state 9 0 (fun _ => 0) (fun _ => 0)
        { demoLobby with state := "score" } (some ["Turquoise"])).1.players
        = ({ demoLobby with state := "score" } : GameLobby).players ∧
      (toggle_state 9 0 (fun _ => 0) (fun _ => 0)
        { demoLobby with state := "score" } (some ["Turquoise"])).1.used_songs
        = ({ demoLobby with state := "score" } : GameLobby).used_songs ∧
      (toggle_state 9 0 (fun _ => 0) (fun _ => 0)
        { demoLobby with state := "score" } (some ["Turquoise"])).1.current_song
        = ({ demoLobby with state := "score" } : GameLobby).current_song) :=
  ⟨rfl, by with_unfolding_all decide,
    toggle_selection_failure_frame 9 0 (fun _ => 0) (fun _ => 0)
      { demoLobby with state := "score" } (some ["Turquoise"]) rfl
      (by with_unfolding_all decide)⟩

/-- A player who has answered Red this round. -/
def ansPlayer : Player := { demoPlayer with has_answered := true, answer := some "Red" }

/-- A one-player lobby whose player has answered and carries score 7. -/
def soloLobby : GameLobby := { demoLobby with players := [("A", { ansPlayer with score := 7 })] }

/-- A two-player roster: A has answered, B has not. -/
def duoLobby : GameLobby := { demoLobby with players := [("A", ansPlayer), ("B", Player.mk0 "B")] }

/-- Claim C3, counterexample: a lobby whose only player has answered and
has score 7; `remove_player` (the code's disconnect path) yields an
`answered_count` of (0, 0), not the (1, 1) the claim requires, and the
player's record — score included — is gone from the registry. -/
theorem remove_player_retention_cex :
    get_answer_count (remove_player soloLobby "A") = (0, 0) ∧
    ((0, 0) : Nat × Nat) ≠ (1, 1) ∧
    lookupPlayer (remove_player soloLobby "A") "A" = none := by
  refine ⟨by decide, by decide, by decide⟩

/-- Auxiliary counting fact behind the C3 correction: deleting the entry
found for key `n` from a roster with distinct keys removes exactly that
entry from both components of the answer count. -/
lemma filter_ne_counts (n : String) (p : Player) :
    ∀ ps : List (String × Player), (ps.find? (fun q => q.1 == n)) = some (n, p) →
    (ps.map Prod.fst).Nodup →
    (ps.filter (fun q => q.1 != n)).length = ps.length - 1 ∧
    ((ps.filter (fun q => q.1 != n)).filter (fun q => q.2.has_answered)).length
      = (ps.filter (fun q => q.2.has_answered)).length
        - (if p.has_answered then 1 else 0)
  | [], hfind, _ => by simp at hfind
  | ⟨qn, qp⟩ :: ps, hfind, hnodup => by
    rw [List.map_cons, List.nodup_cons] at hnodup
    obtain ⟨hq, hps⟩ := hnodup
    by_cases hqn : qn = n
    · subst hqn
      rw [List.find?_cons_of_pos _ (by simp)] at hfind
      obtain rfl : qp = p := by simpa using hfind
      have hkeep : ∀ r ∈ ps, ((fun q => q.1 != qn) r) = true := by
        intro r hr
        simp only [bne_iff_ne, ne_eq]
        intro hc
        exact hq (List.mem_map.mpr ⟨r, hr, hc⟩)
      have hfil : ps.filter (fun q => q.1 != qn) = ps := List.filter_eq_self.mpr hkeep
      refine ⟨by simp [List.filter_cons, hfil], ?_⟩
      rw [List.filter_cons, List.filter_cons]
      simp only [bne_self_eq_false, Bool.false_eq_true, if_false, hfil]
      by_cases hpa : qp.has_answered
      · simp [hpa]
      · simp [hpa]
    · have hcond : (((qn, qp) : String × Player).1 != n) = true := by simp [hqn]
      rw [List.find?_cons_of_neg _ (by simp [hqn])] at hfind
      have ih := filter_ne_counts n p ps hfind hps
      have hmem : (n, p) ∈ ps := List.mem_of_find?_eq_some hfind
      refine ⟨?_, ?_⟩
      · rw [List.filter_cons, if_pos hcond]
        have hlen : 0 < ps.length := List.length_pos.mpr (List.ne_nil_of_mem hmem)
        simp only [List.length_cons, ih.1]
        omega
      · rw [List.filter_cons, if_pos hcond, List.filter_cons, List.filter_cons]
        by_cases hqa : qp.has_answered
        · have hle : (if p.has_answered then 1 else 0)
              ≤ (ps.filter (fun q => q.2.has_answered)).length := by
            by_cases hpa : p.has_answered
            · simp only [hpa, if_true]
              have hin : (n, p) ∈ ps.filter (fun q => q.2.has_answered) :=
                List.mem_filter.mpr ⟨hmem, by simpa using hpa⟩
              exact List.length_pos.mpr (List.ne_nil_of_mem hin)
            · simp [hpa]
          simp only [hqa, if_true, List.length_cons, ih.2]
          omega
        · simp only [hqa, Bool.false_eq_true, if_false, ih.2]

/-- Claim C3 (amended): `remove_player` (the disconnect path) deletes the
player's whole registry entry rather than merely clearing the connection
handle: afterwards the name no longer resolves, every other player's full
record is untouched, and the removed player is counted in neither
component of `answered_count` — score, lock and stored answer are not
retained. -/
theorem remove_player_deletes_entry (l : GameLobby) (n : String) (p : Player)
    (hfind : l.players.find? (fun q => q.1 == n) = some (n, p))
    (hnodup : (l.players.map Prod.fst).Nodup) :
    lookupPlayer (remove_player l n) n = none ∧
    (∀ m, m ≠ n → lookupPlayer (remove_player l n) m = lookupPlayer l m) ∧
    get_answer_count (remove_player l n) =
      ((get_answer_count l).1 - (if p.has_answered then 1 else 0),
        (get_answer_count l).2 - 1) := by
  refine ⟨?_, ?_, ?_⟩
  · unfold lookupPlayer remove_player
    rw [List.find?_eq_none.mpr ?_]
    · rfl
    · intro q hqmem
      have := (List.mem_filter.mp hqmem).2
      simpa using this
  · intro m hm
    unfold lookupPlayer remove_player
    congr 1
    induction l.players with
    | nil => rfl
    | cons q ps ih =>
      by_cases hqn : q.1 = n
      · rw [List.filter_cons, if_neg (by simp [hqn]),
          List.find?_cons_of_neg _ (by simp [hqn, Ne.symm hm])]
        exact ih
      · rw [List.filter_cons, if_pos (by simp [hqn])]
        by_cases hqm : q.1 = m
        · rw [List.find?_cons_of_pos _ (by simp [hqm]),
            List.find?_cons_of_pos _ (by simp [hqm])]
        · rw [List.find?_cons_of_neg _ (by simp [hqm]),
            List.find?_cons_of_neg _ (by simp [hqm])]
          exact ih
  · have := filter_ne_counts n p l.players hfind hnodup
    unfold get_answer_count remove_player
    simp only
    exact Prod.ext (this.2) (this.1)

/-- Claim C3 witness: removing an answered player from a two-player roster
drops exactly that player from both counts and leaves the other intact. -/
theorem remove_player_deletes_entry_witness :
    duoLobby.players.find? (fun q => q.1 == "A") = some ("A", ansPlayer) ∧
    (duoLobby.players.map Prod.fst).Nodup ∧
    (lookupPlayer (remove_player duoLobby "A") "A" = none ∧
      (∀ m, m ≠ "A" →
        lookupPlayer (remove_player duoLobby "A") m = lookupPlayer duoLobby m) ∧
      get_answer_count (remove_player duoLobby "A") =
        ((get_answer_count duoLobby).1 - (if ansPlayer.has_answered then 1 else 0),
          (get_answer_count duoLobby).2 - 1)) :=
  ⟨by decide, by decide,
    remove_player_deletes_entry duoLobby "A" ansPlayer (by decide) (by decide)⟩

/-- Claim C4, counterexample: at t = 49.9 the code awards
`max(0, int(5000 - 4990)) = 10` — not the 1000 the claim asserts, and not
the `max(0, 5000 - 100*floor(t)) = 100` of the claim's formula either. -/
theorem score_decay_concrete_cex :
    roundScore (499/10) = 10 ∧ (10 : ℤ) ≠ 1000 ∧
    (10 : ℤ) ≠ max 0 (5000 - 100 * ⌊(499/10 : ℚ)⌋) := by
  refine ⟨by with_unfolding_all decide, by decide, by with_unfolding_all decide⟩

/-- Claim C4 (amended): for elapsed t in [0, round_duration] the score for
a correct first answer is `max(0, ⌊5000 - 100t⌋)` (the floor over the whole
difference): t = 0 awards 5000, t = 10 awards 4000, t = 49.9 awards 10
(not 0), and t = 50.1 exceeds the 50-second deadline, so the submission is
rejected as late with (false, 0) and no state change. -/
theorem roundScore_closed_form :
    (∀ t : ℚ, 0 ≤ t → t ≤ 50 → roundScore t = max 0 ⌊5000 - 100 * t⌋) ∧
    roundScore 0 = 5000 ∧ roundScore 10 = 4000 ∧ roundScore (499/10) = 10 ∧
    check_answer demoLobby (501/10) "A" "Red" = some (demoLobby, false, 0) := by
  refine ⟨?_, by with_unfolding_all decide, by with_unfolding_all decide,
    by with_unfolding_all decide, ?_⟩
  · intro t _h0 _h50
    rw [roundScore, max_pyInt_eq_max_floor, mul_comm]
  · simp only [check_answer, demoLobby, demoPlayer, lookupPlayer, List.find?,
      setPlayer, roundScore, pyInt, answerMem]
    norm_num

/-- Claim C4 witness: the closed form instantiated at t = 7. -/
theorem roundScore_closed_form_witness :
    (0 : ℚ) ≤ 7 ∧ (7 : ℚ) ≤ 50 ∧ roundScore 7 = max 0 ⌊5000 - 100 * (7 : ℚ)⌋ :=
  ⟨by with_unfolding_all decide, by with_unfolding_all decide,
    roundScore_closed_form.1 7 (by with_unfolding_all decide)
      (by with_unfolding_all decide)⟩

/-- The names of the connected players, in roster order: exactly the
set of connections a complete broadcast pass delivers to. -/
def connectedNames (ps : List (String × Player)) : List String :=
  (ps.filter (fun q => q.2.websocket.isSome)).map Prod.fst

/-- Claim C9, counterexample: two connected players A and B; the send to A
fails.  The broadcast loop delivers to nobody — in particular the still
healthy connection B is skipped — and aborts, contradicting per-connection
isolation; no disconnect of A is performed by the loop either. -/
theorem broadcast_failure_isolation_cex :
    broadcast_game_state (fun n => n != "A")
      [("A", demoPlayer), ("B", { demoPlayer with name := "B", websocket := some 1 })]
      = ([], false) ∧
    ({ demoPlayer with name := "B", websocket := some 1 } : Player).websocket.isSome = true ∧
    "B" ∉ (broadcast_game_state (fun n => n != "A")
      [("A", demoPlayer), ("B", { demoPlayer with name := "B", websocket := some 1 })]).1 := by
  refine ⟨by decide, by decide, by decide⟩

/-- Claim C9 (amended): sends in the broadcast fan-out are *not* isolated:
the loop sends to connected players in roster order, and the first failing
send raises out of the loop, so every connection after the failure point —
healthy or not — receives nothing, and the loop reports no completion; the
players before the failure point have already been sent to. -/
theorem broadcast_failure_aborts_tail (sendOk : String → Bool)
    (pre : List (String × Player)) (n : String) (p : Player)
    (suf : List (String × Player))
    (hpre : ∀ q ∈ pre, q.2.websocket.isSome → sendOk q.1 = true)
    (hconn : p.websocket.isSome) (hfail : sendOk n = false) :
    broadcast_game_state sendOk (pre ++ (n, p) :: suf) = (connectedNames pre, false) := by
  induction pre with
  | nil =>
    simp only [List.nil_append, broadcast_game_state, hconn, if_true, hfail,
      Bool.false_eq_true, if_false, connectedNames, List.filter_nil, List.map_nil]
  | cons q ps ih =>
    have ih' := ih (fun r hr => hpre r (List.mem_cons_of_mem q hr))
    by_cases hq : q.2.websocket.isSome
    · have hok : sendOk q.1 = true := hpre q (List.mem_cons_self q ps) hq
      simp only [List.cons_append, broadcast_game_state, hq, if_true, hok,
        List.append_eq, ih', connectedNames, List.filter_cons, List.map_cons]
    · simp only [List.cons_append, broadcast_game_state, hq, Bool.false_eq_true,
        if_false, List.append_eq, ih', connectedNames, List.filter_cons]

/-- Claim C9 witness: a three-player roster where the middle send fails:
only the first (connected) player is reached. -/
theorem broadcast_failure_aborts_tail_witness :
    (∀ q ∈ [("Z", demoPlayer)], (q.2 : Player).websocket.isSome →
      (fun n => n != "A") q.1 = true) ∧
    (demoPlayer.websocket.isSome = true) ∧
    ((fun n => n != "A") "A" = false) ∧
    broadcast_game_state (fun n => n != "A")
        ([("Z", demoPlayer)] ++ ("A", demoPlayer) ::
          [("B", { demoPlayer with name := "B", websocket := some 1 })])
      = (connectedNames [("Z", demoPlayer)], false) :=
  ⟨by decide, by decide, by decide,
    broadcast_failure_aborts_tail (fun n => n != "A") [("Z", demoPlayer)] "A" demoPlayer
      [("B", { demoPlayer with name := "B", websocket := some 1 })]
      (by decide) (by decide) (by decide)⟩

/-- The confusable-group exclusion invariant of a selected round: no two
distinct-named members of the same confusable group are displayed unless
both are correct. -/
def confusableOK (correct : List String) (rcs : List Color) : Prop :=
  ∀ G, (G = confGroup1 ∨ G = confGroup2) →
    ∀ x ∈ rcs, ∀ y ∈ rcs,
      x.name ∈ G → y.name ∈ G → x.name ≠ y.name →
      x.name ∈ correct ∧ y.name ∈ correct

/-- The pool-cleanliness invariant of the filler loop: once a confusable
group is represented among the chosen colors, no member of that group is
left in the pool. -/
def availClean (rcs avail : List Color) : Prop :=
  ∀ G, (G = confGroup1 ∨ G = confGroup2) →
    (∃ x ∈ rcs, x.name ∈ G) → ∀ c ∈ avail, c.name ∉ G

/-- The two confusable groups are disjoint. -/
lemma conf_disjoint : ∀ s, s ∈ confGroup1 → s ∉ confGroup2 := by decide

/-- Pruning only removes colors from the pool. -/
lemma pruneAfter_subset (chosen : Color) (avail : List Color) :
    ∀ c ∈ pruneAfter chosen avail, c ∈ avail := by
  intro c hc
  simp only [pruneAfter] at hc
  split_ifs at hc with h1 h2
  · exact List.mem_of_mem_erase (List.mem_of_mem_filter hc)
  · exact List.mem_of_mem_erase (List.mem_of_mem_filter hc)
  · exact List.mem_of_mem_erase hc

/-- After drawing a member of a confusable group, the pruned pool holds no
member of that group. -/
lemma pruneAfter_clean (chosen : Color) (avail : List Color) (G : List String)
    (hG : G = confGroup1 ∨ G = confGroup2) (hchG : chosen.name ∈ G) :
    ∀ c ∈ pruneAfter chosen avail, c.name ∉ G := by
  intro c hc
  simp only [pruneAfter] at hc
  rcases hG with rfl | rfl
  · rw [if_pos hchG] at hc
    simpa using (List.mem_filter.mp hc).2
  · by_cases h1 : chosen.name ∈ confGroup1
    · exact absurd hchG (conf_disjoint chosen.name h1)
    · rw [if_neg h1, if_pos hchG] at hc
      simpa using (List.mem_filter.mp hc).2

/-- Appending a drawn color to a clean configuration keeps the exclusion
invariant: the new color cannot pair with an already-chosen member of its
group, because the pool held none. -/
lemma confusableOK_append (correct : List String) (rcs avail : List Color)
    (chosen : Color) (hch : chosen ∈ avail)
    (hQ : confusableOK correct rcs) (hP : availClean rcs avail) :
    confusableOK correct (rcs ++ [chosen]) := by
  intro G hG x hx y hy hxG hyG hne
  rcases List.mem_append.mp hx with hx' | hx' <;>
    rcases List.mem_append.mp hy with hy' | hy'
  · exact hQ G hG x hx' y hy' hxG hyG hne
  · have : y = chosen := by simpa using hy'
    subst this
    exact absurd hyG (hP G hG ⟨x, hx', hxG⟩ y hch)
  · have : x = chosen := by simpa using hx'
    subst this
    exact absurd hxG (hP G hG ⟨y, hy', hyG⟩ x hch)
  · have hx'' : x = chosen := by simpa using hx'
    have hy'' : y = chosen := by simpa using hy'
    exact absurd (hx'' ▸ hy'' ▸ rfl) hne

/-- One filler iteration preserves pool cleanliness. -/
lemma availClean_step (rcs avail : List Color) (chosen : Color)
    (hch : chosen ∈ avail) (hP : availClean rcs avail) :
    availClean (rcs ++ [chosen]) (pruneAfter chosen avail) := by
  rintro G hG ⟨x, hx, hxG⟩ c hc
  by_cases hchG : chosen.name ∈ G
  · exact pruneAfter_clean chosen avail G hG hchG c hc
  · rcases List.mem_append.mp hx with hx' | hx'
    · exact hP G hG ⟨x, hx', hxG⟩ c (pruneAfter_subset chosen avail c hc)
    · have : x = chosen := by simpa using hx'
      subst this
      exact absurd hxG hchG

/-- The filler loop preserves the confusable exclusion invariant. -/
lemma fillLoop_confusableOK (seeds : Nat → Nat) (correct : List String) :
    ∀ fuel k rcs avail, confusableOK correct rcs → availClean rcs avail →
      confusableOK correct (fillLoop seeds k fuel rcs avail)
  | 0, _, _, _, hQ, _ => hQ
  | fuel + 1, k, rcs, avail, hQ, hP => by
    rw [fillLoop]
    split
    · next h =>
      have hlen : 0 < avail.length := List.length_pos.mpr h.2
      exact fillLoop_confusableOK seeds correct fuel (k + 1) _ _
        (confusableOK_append correct rcs avail _ (avail.get_mem _ _) hQ hP)
        (availClean_step rcs avail _ (avail.get_mem _ _) hP)
    · exact hQ

/-- Everything already chosen stays in the filler loop's output. -/
lemma mem_fillLoop_of_mem (seeds : Nat → Nat) :
    ∀ fuel k rcs avail, ∀ x ∈ rcs, x ∈ fillLoop seeds k fuel rcs avail
  | 0, _, _, _, _, hx => hx
  | fuel + 1, k, rcs, avail, x, hx => by
    rw [fillLoop]
    split
    · exact mem_fillLoop_of_mem seeds fuel (k + 1) _ _ x (List.mem_append_left _ hx)
    · exact hx

/-- The seeded shuffle is a permutation. -/
lemma shuffleLoop_perm (seeds : Nat → Nat) :
    ∀ fuel k l, l.length ≤ fuel → (shuffleLoop seeds k fuel l).Perm l
  | 0, _, l, hl => by
    have : l = [] := List.length_eq_zero.mp (Nat.le_zero.mp hl)
    subst this
    rfl
  | fuel + 1, k, l, hl => by
    rw [shuffleLoop]
    split
    · next h => subst h; rfl
    · next h =>
      have hlen : 0 < l.length := List.length_pos.mpr h
      have hch : l.get ⟨seeds k % l.length, Nat.mod_lt _ hlen⟩ ∈ l := l.get_mem _ _
      have herase : (l.erase (l.get ⟨seeds k % l.length, Nat.mod_lt _ hlen⟩)).length ≤ fuel := by
        rw [List.length_erase_of_mem hch]
        omega
      have ih := shuffleLoop_perm seeds fuel (k + 1) _ herase
      exact (ih.cons _).trans (List.perm_cons_erase hch).symm

/-- `shuffle` permutes its input. -/
lemma shuffle_perm (seeds : Nat → Nat) (l : List Color) : (shuffle seeds l).Perm l :=
  shuffleLoop_perm seeds l.length 0 l le_rfl

/-- The exclusion invariant only depends on membership, so it transfers
along permutations. -/
lemma confusableOK_perm (correct : List String) {l1 l2 : List Color}
    (h : l1.Perm l2) (hOK : confusableOK correct l2) : confusableOK correct l1 :=
  fun G hG x hx y hy => hOK G hG x (h.subset hx) y (h.subset hy)

/-- If a confusable group touches the correct set, the whole group is in
the exclusion set. -/
lemma excludedFor_superset (correct G : List String)
    (hG : G = confGroup1 ∨ G = confGroup2) (hex : ∃ n ∈ correct, n ∈ G) :
    ∀ s ∈ G, s ∈ excludedFor correct := by
  obtain ⟨n, hn, hnG⟩ := hex
  intro s hs
  unfold excludedFor
  rcases hG with rfl | rfl
  · refine List.mem_append_left _ ?_
    rw [if_pos (List.any_eq_true.mpr ⟨n, hn, by simpa using hnG⟩)]
    exact hs
  · refine List.mem_append_right _ ?_
    rw [if_pos (List.any_eq_true.mpr ⟨n, hn, by simpa using hnG⟩)]
    exact hs

/-- The correct-name list produced by `buildRound`. -/
lemma buildRound_correct_eq (fillSeeds shufSeeds : Nat → Nat) (cc : List Color) :
    (buildRound fillSeeds shufSeeds cc).2 = cc.map (fun c => c.name) := rfl

/-- Every correct color is among the displayed options of `buildRound`. -/
lemma buildRound_mem (fillSeeds shufSeeds : Nat → Nat) (cc : List Color) :
    ∀ c ∈ cc, c ∈ (buildRound fillSeeds shufSeeds cc).1 := by
  intro c hc
  simp only [buildRound]
  exact (shuffle_perm shufSeeds _).mem_iff.mpr
    (mem_fillLoop_of_mem fillSeeds 6 0 cc _ c hc)

/-- The output of `buildRound` satisfies the confusable exclusion
invariant with respect to its correct set. -/
lemma buildRound_confusableOK (fillSeeds shufSeeds : Nat → Nat) (cc : List Color) :
    confusableOK (cc.map (fun c => c.name)) (buildRound fillSeeds shufSeeds cc).1 := by
  have hQ0 : confusableOK (cc.map (fun c => c.name)) cc := by
    intro G _ x hx y hy _ _ _
    exact ⟨List.mem_map.mpr ⟨x, hx, rfl⟩, List.mem_map.mpr ⟨y, hy, rfl⟩⟩
  have hP0 : availClean cc (all_colors.filter
      (fun c => decide (c.name ∉ excludedFor (cc.map (fun c => c.name)))
        && decide (c ∉ cc))) := by
    rintro G hG ⟨x, hx, hxG⟩ c hc
    have hfil := (List.mem_filter.mp hc).2
    rw [Bool.and_eq_true] at hfil
    have hnotex : c.name ∉ excludedFor (cc.map (fun c => c.name)) := by
      simpa using hfil.1
    intro hcG
    exact hnotex (excludedFor_superset _ G hG
      ⟨x.name, List.mem_map.mpr ⟨x, hx, rfl⟩, hxG⟩ c.name hcG)
  have hfill := fillLoop_confusableOK fillSeeds (cc.map (fun c => c.name)) 6 0 cc _ hQ0 hP0
  exact confusableOK_perm _ (shuffle_perm shufSeeds _) hfill

/-- On every success path, `select_round_colors` produced its round from
`buildRound` applied to a non-empty resolved correct-color list. -/
lemma select_success_shape (songSeed : Nat) (fillSeeds shufSeeds : Nat → Nat)
    (l : GameLobby) (spec : Option (List String))
    (h : (select_round_colors songSeed fillSeeds shufSeeds l spec).2 = true) :
    ∃ cc : List Color, cc ≠ [] ∧
      (select_round_colors songSeed fillSeeds shufSeeds l spec).1.round_colors
        = (buildRound fillSeeds shufSeeds cc).1 ∧
      (select_round_colors songSeed fillSeeds shufSeeds l spec).1.correct_colors
        = (buildRound fillSeeds shufSeeds cc).2 := by
  unfold select_round_colors at h ⊢
  dsimp only at h ⊢
  split_ifs at h ⊢ with h1 h2 h3 h4 <;>
    exact ⟨_, by assumption, rfl, rfl⟩

/-- `check_answer` never modifies the selected round data. -/
lemma check_answer_preserves_round (l : GameLobby) (now : ℚ) (pn cn : String)
    (r : GameLobby × Bool × ℤ) (h : check_answer l now pn cn = some r) :
    r.1.round_colors = l.round_colors ∧ r.1.correct_colors = l.correct_colors := by
  unfold check_answer at h
  split_ifs at h with h1
  · obtain rfl := Option.some.inj h
    exact ⟨rfl, rfl⟩
  · rcases hl : lookupPlayer l pn with _ | p
    · rw [hl] at h; simp at h
    · rw [hl] at h
      dsimp only at h
      by_cases ha : p.has_answered
      · simp only [ha, if_true] at h
        obtain rfl := Option.some.inj h
        exact ⟨rfl, rfl⟩
      · simp only [ha, Bool.false_eq_true, if_false] at h
        rcases hs : l.round_start_time with _ | s
        · rw [hs] at h; simp at h
        · rw [hs] at h
          dsimp only at h
          split_ifs at h <;>
            (obtain rfl := Option.some.inj h; exact ⟨rfl, rfl⟩)

/-- Claim C6: in every successfully selected round (explicit-colors or
catalog mode), no two distinct members of a confusable group are displayed
unless both are correct: filler draws are pruned group-wise and any group
touching the correct set is excluded from fillers entirely. -/
theorem select_confusable_exclusion (songSeed : Nat) (fillSeeds shufSeeds : Nat → Nat)
    (l : GameLobby) (spec : Option (List String))
    (hsel : (select_round_colors songSeed fillSeeds shufSeeds l spec).2 = true) :
    confusableOK (select_round_colors songSeed fillSeeds shufSeeds l spec).1.correct_colors
      (select_round_colors songSeed fillSeeds shufSeeds l spec).1.round_colors := by
  obtain ⟨cc, _, hrc, hcc⟩ := select_success_shape songSeed fillSeeds shufSeeds l spec hsel
  rw [hrc, hcc, buildRound_correct_eq]
  exact buildRound_confusableOK fillSeeds shufSeeds cc

/-- Claim C6 witness: a concrete successful selection with correct color
Yellow (so Gold and Orange must only ever appear if correct). -/
theorem select_confusable_exclusion_witness :
    (select_round_colors 0 (fun _ => 0) (fun _ => 0)
        { demoLobby with state := "score" } (some ["Yellow"])).2 = true ∧
    confusableOK
      (select_round_colors 0 (fun _ => 0) (fun _ => 0)
        { demoLobby with state := "score" } (some ["Yellow"])).1.correct_colors
      (select_round_colors 0 (fun _ => 0) (fun _ => 0)
        { demoLobby with state := "score" } (some ["Yellow"])).1.round_colors :=
  ⟨by with_unfolding_all decide,
    select_confusable_exclusion 0 (fun _ => 0) (fun _ => 0)
      { demoLobby with state := "score" } (some ["Yellow"])
      (by with_unfolding_all decide)⟩

/-- Claim C7: after every successful selection, `correct_colors` is
non-empty and each of its names is the name of a displayed option; and
`check_answer` — the only mutation possible while the round is Active —
never changes `round_colors` or `correct_colors`, so the invariant
persists for the round's lifetime. -/
theorem select_correct_nonempty_subset (songSeed : Nat) (fillSeeds shufSeeds : Nat → Nat)
    (l : GameLobby) (spec : Option (List String))
    (hsel : (select_round_colors songSeed fillSeeds shufSeeds l spec).2 = true) :
    (select_round_colors songSeed fillSeeds shufSeeds l spec).1.correct_colors ≠ [] ∧
    (∀ n ∈ (select_round_colors songSeed fillSeeds shufSeeds l spec).1.correct_colors,
      ∃ c ∈ (select_round_colors songSeed fillSeeds shufSeeds l spec).1.round_colors,
        c.name = n) ∧
    (∀ now pn cn r,
      check_answer (select_round_colors songSeed fillSeeds shufSeeds l spec).1 now pn cn
          = some r →
        r.1.round_colors
          = (select_round_colors songSeed fillSeeds shufSeeds l spec).1.round_colors ∧
        r.1.correct_colors
          = (select_round_colors songSeed fillSeeds shufSeeds l spec).1.correct_colors) := by
  obtain ⟨cc, hne, hrc, hcc⟩ := select_success_shape songSeed fillSeeds shufSeeds l spec hsel
  refine ⟨?_, ?_, ?_⟩
  · rw [hcc, buildRound_correct_eq]
    simpa using hne
  · intro n hn
    rw [hcc, buildRound_correct_eq] at hn
    obtain ⟨c, hc, rfl⟩ := List.mem_map.mp hn
    exact ⟨c, hrc ▸ buildRound_mem fillSeeds shufSeeds cc c hc, rfl⟩
  · intro now pn cn r h
    exact check_answer_preserves_round _ now pn cn r h

/-- Claim C7 witness: a concrete catalog-mode selection (one unused song
tagged Blue) and a submission against the selected round. -/
theorem select_correct_nonempty_subset_witness :
    (select_round_colors 0 (fun _ => 0) (fun _ => 0)
        { demoLobby with state := "score",
                         songs := [{ uri := "u1", colors := ["blue"] }] } none).2 = true ∧
    ((select_round_colors 0 (fun _ => 0) (fun _ => 0)
        { demoLobby with state := "score",
                         songs := [{ uri := "u1", colors := ["blue"] }] } none).1.correct_colors
      ≠ [] ∧
     (∀ n ∈ (select_round_colors 0 (fun _ => 0) (fun _ => 0)
        { demoLobby with state := "score",
                         songs := [{ uri := "u1", colors := ["blue"] }] } none).1.correct_colors,
       ∃ c ∈ (select_round_colors 0 (fun _ => 0) (fun _ => 0)
          { demoLobby with state := "score",
                           songs := [{ uri := "u1", colors := ["blue"] }] } none).1.round_colors,
         c.name = n) ∧
     (∀ now pn cn r,
       check_answer (select_round_colors 0 (fun _ => 0) (fun _ => 0)
          { demoLobby with state := "score",
                           songs := [{ uri := "u1", colors := ["blue"] }] } none).1 now pn cn
           = some r →
         r.1.round_colors = (select_round_colors 0 (fun _ => 0) (fun _ => 0)
            { demoLobby with state := "score",
                             songs := [{ uri := "u1", colors := ["blue"] }] } none).1.round_colors ∧
         r.1.correct_colors = (select_round_colors 0 (fun _ => 0) (fun _ => 0)
            { demoLobby with state := "score",
                             songs := [{ uri := "u1", colors := ["blue"] }] } none).1.correct_colors)) :=
  ⟨by with_unfolding_all decide,
    select_correct_nonempty_subset 0 (fun _ => 0) (fun _ => 0)
      { demoLobby with state := "score",
                       songs := [{ uri := "u1", colors := ["blue"] }] } none
      (by with_unfolding_all decide)⟩

/-- Claim C10 witness: the lookup faults for an absent name and succeeds
for a present one. -/
theorem check_answer_roster_totality_witness :
    (({ demoLobby with players := [] } : GameLobby).state = "question" ∧
      lookupPlayer { demoLobby with players := [] } "Ghost" = none ∧
      check_answer { demoLobby with players := [] } 0 "Ghost" "Red" = none) ∧
    ((lookupPlayer demoLobby "A").isSome ∧
      (check_answer demoLobby 0 "A" "Red").isSome) :=
  ⟨⟨rfl, by decide,
      (check_answer_roster_totality { demoLobby with players := [] } 0 "Ghost" "Red").1
        rfl (by decide)⟩,
    ⟨by decide,
      (check_answer_roster_totality demoLobby 0 "A" "Red").2 (by decide)
        (fun _ => rfl)⟩⟩

end Spektrum
